import Mathlib

/-!
Formal model of the 432 Hz batch audio converter (src/main.py) and proofs of
the specified properties.  Pure functions of the source are translated
directly; stateful parts (filesystem renames, the probe cache, the external
tool invocations) are embedded with explicit state passing and oracles for
the environment (which external command succeeds, what it prints).
-/

/-! ## Basic Python-style string helpers -/

/-- Digit list to number, most significant first (models int() on a digit string). -/
def natOfDigits (cs : List Char) : Nat :=
  cs.foldl (fun a c => a * 10 + (c.toNat - '0'.toNat)) 0

/-- Models Python str.isdigit() for ASCII content: nonempty and all digits. -/
def pyIsDigit (s : String) : Bool :=
  !s.data.isEmpty && s.data.all Char.isDigit

/-- Models Python int(s) on the token shapes that occur in codec option lists:
an optional sign followed by one or more digits; none models a ValueError. -/
def pyIntOpt (s : String) : Option Int :=
  match s.data with
  | [] => none
  | '+' :: rest =>
      if !rest.isEmpty && rest.all Char.isDigit then some (natOfDigits rest) else none
  | '-' :: rest =>
      if !rest.isEmpty && rest.all Char.isDigit then some (-(natOfDigits rest : Int)) else none
  | cs =>
      if cs.all Char.isDigit then some (natOfDigits cs) else none

/-- Models Python str.lower() for the ASCII content these strings carry.
Implemented over the character list so that kernel reduction works. -/
def pyLower (s : String) : String :=
  ⟨s.data.map Char.toLower⟩

/-- Models str.endswith(t), over character lists. -/
def pyEndsWith (s t : String) : Bool :=
  t.data.reverse.isPrefixOf s.data.reverse

/-- Models the slice s[:-1]. -/
def pyDropLast (s : String) : String :=
  ⟨s.data.dropLast⟩

/-- Substring test on char lists: models the Python `in` operator for strings. -/
def containsSub (pat : List Char) : List Char → Bool
  | [] => pat.isEmpty
  | c :: rest => pat.isPrefixOf (c :: rest) || containsSub pat rest

/-- String-level wrapper for `containsSub`. -/
def strContains (s pat : String) : Bool :=
  containsSub pat.data s.data

/-! ## Paths -/

/-- A filesystem path, as the batch converter uses it: a directory part plus a
final name component.  `with_name` replaces only the name, as in pathlib. -/
structure FPath where
  dir : String
  name : String
deriving DecidableEq

/-- Models pathlib Path.with_name. -/
def FPath.with_name (p : FPath) (n : String) : FPath :=
  ⟨p.dir, n⟩

/-- Models str(path): the directory part, a separator, and the name. -/
def FPath.toStr (p : FPath) : String :=
  p.dir ++ "/" ++ p.name

/-- Models pathlib Path.suffix: the final dotted extension of the name, empty
when the only dot is leading or there is no dot. -/
def pySuffix (name : String) : String :=
  match name.data.reverse.takeWhile (fun c => c ≠ '.') with
  | rest =>
    if rest.length = name.length then ""                -- no dot at all
    else if rest.length + 1 = name.length then ""       -- the dot is the first character
    else if rest.isEmpty then ""                        -- the dot is the last character
    else String.mk ('.' :: rest.reverse)

/-! ## Static extension tables (src/main.py lines 354-373, 439-489) -/

/-- Extensions the converter can output while keeping the container. -/
def OUTPUT_EXTS : List String :=
  [".mp3", ".m4a", ".aac", ".flac", ".wav", ".wma", ".ogg", ".opus"]

/-- Extensions where video streams are valid in the container. -/
def VIDEO_CONTAINER_EXTS : List String :=
  [".mkv", ".mp4", ".m4v", ".mov", ".webm", ".avi", ".ts", ".m2ts", ".mts",
   ".mpg", ".mpeg", ".mpe", ".m2v", ".vob", ".wmv", ".asf", ".flv", ".f4v",
   ".3gp", ".3g2", ".ogv"]

/-- High-quality codec table (HQ_CODEC). -/
def HQ_CODEC : List (String × List String) :=
  [ (".mp3", ["-c:a", "libmp3lame", "-b:a", "320k", "-compression_level", "0"]),
    (".m4a", ["-c:a", "aac", "-b:a", "512k", "-movflags", "+faststart"]),
    (".aac", ["-c:a", "aac", "-b:a", "512k"]),
    (".flac", ["-c:a", "flac", "-compression_level", "8"]),
    (".wav", ["-c:a", "pcm_s24le"]),
    (".wma", ["-c:a", "wmapro", "-b:a", "320k"]),
    (".ogg", ["-c:a", "libvorbis", "-q:a", "6"]),
    (".opus", ["-c:a", "libopus", "-b:a", "192k"]),
    (".mkv", ["-c:a", "flac", "-compression_level", "8"]),
    (".mp4", ["-c:a", "aac", "-b:a", "320k", "-movflags", "+faststart"]),
    (".m4v", ["-c:a", "aac", "-b:a", "320k", "-movflags", "+faststart"]),
    (".mov", ["-c:a", "aac", "-b:a", "320k", "-movflags", "+faststart"]),
    (".webm", ["-c:a", "libopus", "-b:a", "192k"]),
    (".avi", ["-c:a", "aac", "-b:a", "320k"]),
    (".ts", ["-c:a", "aac", "-b:a", "320k"]),
    (".m2ts", ["-c:a", "aac", "-b:a", "320k"]),
    (".mts", ["-c:a", "aac", "-b:a", "320k"]),
    (".mpg", ["-c:a", "aac", "-b:a", "320k"]),
    (".mpeg", ["-c:a", "aac", "-b:a", "320k"]),
    (".wmv", ["-c:a", "aac", "-b:a", "320k"]) ]

/-- Safe-tier codec table (SAFE_CODEC). -/
def SAFE_CODEC : List (String × List String) :=
  [ (".mp3", ["-c:a", "libmp3lame", "-b:a", "320k"]),
    (".m4a", ["-c:a", "aac", "-b:a", "256k", "-movflags", "+faststart"]),
    (".aac", ["-c:a", "aac", "-b:a", "256k"]),
    (".flac", ["-c:a", "flac"]),
    (".wav", ["-c:a", "pcm_s16le"]),
    (".wma", ["-c:a", "wmav2", "-b:a", "192k"]),
    (".ogg", ["-c:a", "libvorbis", "-q:a", "4"]),
    (".opus", ["-c:a", "libopus", "-b:a", "128k"]),
    (".mkv", ["-c:a", "flac"]),
    (".mp4", ["-c:a", "aac", "-b:a", "256k", "-movflags", "+faststart"]),
    (".m4v", ["-c:a", "aac", "-b:a", "256k", "-movflags", "+faststart"]),
    (".mov", ["-c:a", "aac", "-b:a", "256k", "-movflags", "+faststart"]),
    (".webm", ["-c:a", "libopus", "-b:a", "128k"]),
    (".avi", ["-c:a", "aac", "-b:a", "256k"]),
    (".ts", ["-c:a", "aac", "-b:a", "256k"]),
    (".m2ts", ["-c:a", "aac", "-b:a", "256k"]),
    (".mts", ["-c:a", "aac", "-b:a", "256k"]),
    (".mpg", ["-c:a", "aac", "-b:a", "256k"]),
    (".mpeg", ["-c:a", "aac", "-b:a", "256k"]),
    (".wmv", ["-c:a", "aac", "-b:a", "256k"]) ]

/-- dict.get on the static tables. -/
def tableGet (t : List (String × List String)) (k : String) : Option (List String) :=
  (t.find? (fun kv => kv.1 = k)).map (fun kv => kv.2)

/-- _codec_for_ext (src/main.py lines 492-498). -/
def _codec_for_ext (ext : String) (safe : Bool) : List String :=
  let e := pyLower ext
  let default_codec :=
    if e = ".flac" || e = ".wav" then
      (tableGet SAFE_CODEC e).getD ["-c:a", "copy"]
    else ["-c:a", "aac", "-b:a", "320k"]
  ((if safe then tableGet SAFE_CODEC e else tableGet HQ_CODEC e)).getD default_codec

/-! ## Output extension choice (src/main.py lines 377-391) -/

/-- _choose_output_ext: decide the output extension. -/
def _choose_output_ext (input_ext : String) (has_real_video : Bool) : String :=
  let in_ext := pyLower input_ext
  if has_real_video then
    (if in_ext = "" then ".mp4" else in_ext)
  else if in_ext = ".wma" then ".mp3"
  else if OUTPUT_EXTS.contains in_ext then in_ext
  else ".mp3"

/-! ## Bitrate adjustment (src/main.py lines 674-694) -/

/-- Numeric value in bps of a bitrate token: an integer with a trailing k or
K is kilobits, a pure digit string is bps; none models either the -1 sentinel
(token of neither shape) or a ValueError from int(), both of which leave the
option list unchanged in the source. -/
def bitrateTokenBps (s : String) : Option Int :=
  if pyEndsWith (pyLower s) "k" then
    (pyIntOpt (pyDropLast s)).map (fun n => n * 1000)
  else if pyIsDigit s then some (natOfDigits s.data : Int)
  else none

/-- The token written back by the adjustment pass: f-string of orig_bps // 1000
followed by k. -/
def kbpsToken (orig_bps : Nat) : String :=
  toString (orig_bps / 1000) ++ "k"

/-- _adjust_bitrate_in_options: lower the target bitrate after the first -b:a
token when the original bit rate is known and lower. -/
def _adjust_bitrate_in_options (codec_options : List String) (orig_bps : Option Nat) :
    List String :=
  match orig_bps with
  | none => codec_options
  | some orig =>
    match codec_options.findIdx? (fun x => x == "-b:a") with
    | none => codec_options
    | some b_a_idx =>
      match codec_options[b_a_idx + 1]? with
      | none => codec_options
      | some target_br_str =>
        match bitrateTokenBps target_br_str with
        | none => codec_options
        | some target_bps =>
          if (orig : Int) < target_bps then
            codec_options.set (b_a_idx + 1) (kbpsToken orig)
          else codec_options

/-! ## Backup naming (src/main.py lines 410-419) -/

/-- The loop body of _unique_backup_path: starting at index i with the given
fuel, return the first candidate name.bak{i} that does not exist; none models
the RuntimeError when the loop exhausts. -/
def backupScan (fsHas : FPath → Bool) (p : FPath) : Nat → Nat → Option FPath
  | _, 0 => none
  | i, fuel + 1 =>
    let cand := p.with_name (p.name ++ ".bak" ++ toString i)
    if !(fsHas cand) then some cand else backupScan fsHas p (i + 1) fuel

/-- _unique_backup_path: name.bak first, then name.bak1 .. name.bak999;
none models the RuntimeError raised when all 1000 candidates exist. -/
def _unique_backup_path (fsHas : FPath → Bool) (p : FPath) : Option FPath :=
  let base := p.with_name (p.name ++ ".bak")
  if !(fsHas base) then some base
  else backupScan fsHas p 1 999

/-- The i-th candidate backup name (i = 0 is plain .bak). -/
def backupCand (p : FPath) (i : Nat) : FPath :=
  if i = 0 then p.with_name (p.name ++ ".bak")
  else p.with_name (p.name ++ ".bak" ++ toString i)

/-! ## File-swap protocol (src/main.py lines 422-435) -/

/-- Filesystem snapshot: which content (an abstract id) sits at each path. -/
def FSMap := FPath → Option Nat

/-- os.replace src dst as an atomic rename: fails (returning none, modelling
the raised OSError) when the injected fault flag is set or the source path
does not exist; on success dst holds what src held and src is gone. -/
def osReplace (fault : Bool) (fs : FSMap) (src dst : FPath) : Option FSMap :=
  if fault then none
  else match fs src with
  | none => none
  | some c => some (fun q => if q = dst then some c else if q = src then none else fs q)

/-- The except-branch of _replace_original_with_backup: if the original is
missing and the backup exists, best-effort rename backup back to original,
swallowing any error from that rename. -/
def swapRollback (fault : Bool) (fs : FSMap) (original backup : FPath) : FSMap :=
  if (fs original).isNone && (fs backup).isSome then
    match osReplace fault fs backup original with
    | some fs2 => fs2
    | none => fs
  else fs

/-- Outcome of the swap protocol, carrying the resulting filesystem state.
err models the re-raised exception; backupExhausted the RuntimeError from
_unique_backup_path. -/
inductive SwapResult where
  | ok (fs : FSMap)
  | err (fs : FSMap)
  | backupExhausted (fs : FSMap)

/-- Filesystem state carried by a swap outcome. -/
def SwapResult.state : SwapResult → FSMap
  | .ok fs => fs
  | .err fs => fs
  | .backupExhausted fs => fs

/-- True when the outcome re-raised the triggering error. -/
def SwapResult.isErr : SwapResult → Bool
  | .err _ => true
  | _ => false

/-- True when the outcome is a successful swap. -/
def SwapResult.isOk : SwapResult → Bool
  | .ok _ => true
  | _ => false

/-- _replace_original_with_backup with injected faults f1 (rename original to
backup), f2 (rename new_file to original) and f3 (the rollback rename). -/
def _replace_original_with_backup (f1 f2 f3 : Bool) (fs : FSMap)
    (original new_file : FPath) : SwapResult :=
  match _unique_backup_path (fun q => (fs q).isSome) original with
  | none => .backupExhausted fs
  | some backup =>
    match osReplace f1 fs original backup with
    | none => .err (swapRollback f3 fs original backup)
    | some fs1 =>
      match osReplace f2 fs1 new_file original with
      | none => .err (swapRollback f3 fs1 original backup)
      | some fs2 => .ok fs2

/-! ## Diagnostic cleaning (src/main.py lines 393-407) -/

/-- Python \w for the ASCII diagnostics at hand. -/
def isWordChar (c : Char) : Bool :=
  c.isAlphanum || c = '_'

/-- Python \s for the ASCII diagnostics at hand. -/
def isPySpace (c : Char) : Bool :=
  c = ' ' || c = '\t' || c = '\n' || c = '\r' || c = '\x0b' || c = '\x0c'

/-- Word boundary after a literal: the literal is a prefix and the next
character, if any, is not a word character. -/
def litThenBoundary (lit : String) (cs : List Char) : Bool :=
  lit.data.isPrefixOf cs &&
    (match cs.drop lit.data.length with
     | [] => true
     | c :: _ => !isWordChar c)

/-- Does the char list contain a slash with at least one whitespace character
directly on each side (the \s+/\s+ core of the libav banner line pattern)? -/
def hasFlankedSlash : List Char → Bool
  | a :: b :: c :: rest =>
      (isPySpace a && b = '/' && isPySpace c) || hasFlankedSlash (b :: c :: rest)
  | _ => false

/-- Matchability of the libav\w+\s+.*?\s+/\s+.* alternative from the start of
the line: the literal libav, at least one word character, then a region that
starts with whitespace and contains a whitespace-flanked slash later on. -/
def libavLineMatch (cs : List Char) : Bool :=
  "libav".data.isPrefixOf cs &&
    (let afterLit := cs.drop 5
     let w := afterLit.takeWhile isWordChar
     let rest := afterLit.dropWhile isWordChar
     !w.isEmpty &&
       (match rest with
        | [] => false
        | c :: _ => isPySpace c && hasFlankedSlash rest))

/-- Matchability of the \s*--(?:[a-zA-Z0-9_-]+=.*|[\w-]+) alternative:
optional leading whitespace, two dashes, then at least one word-or-dash
character (the key=value branch is subsumed by the bare-word branch). -/
def dashOptionMatch (cs : List Char) : Bool :=
  let rest := cs.dropWhile isPySpace
  "--".data.isPrefixOf rest &&
    (match rest.drop 2 with
     | [] => false
     | c :: _ => isWordChar c || c = '-')

/-- _FFMPEG_IGNORE_LINES.match: does the boilerplate pattern match at the
start of the line? -/
def ffmpegIgnoreLine (ln : String) : Bool :=
  litThenBoundary "ffmpeg version" ln.data ||
  litThenBoundary "built with" ln.data ||
  "configuration:".data.isPrefixOf ln.data ||
  libavLineMatch ln.data ||
  dashOptionMatch ln.data ||
  "Incorrect BOM value".data.isPrefixOf ln.data ||
  "Error reading comment frame, skipped".data.isPrefixOf ln.data

/-- Python str.splitlines: split at \n, \r and \r\n, no trailing empty line. -/
def splitlinesGo : List Char → List Char → List String
  | [], acc => if acc.isEmpty then [] else [⟨acc.reverse⟩]
  | '\r' :: '\n' :: rest, acc => ⟨acc.reverse⟩ :: splitlinesGo rest []
  | '\r' :: rest, acc => ⟨acc.reverse⟩ :: splitlinesGo rest []
  | '\n' :: rest, acc => ⟨acc.reverse⟩ :: splitlinesGo rest []
  | c :: rest, acc => splitlinesGo rest (c :: acc)

/-- Models raw.decode(errors=ignore).splitlines(); the raw stderr bytes are
carried as text. -/
def pySplitlines (s : String) : List String :=
  splitlinesGo s.data []

/-- Python list slice l[-n:]. -/
def lastSlice (n : Nat) (l : List String) : List String :=
  l.drop (l.length - n)

/-- _clean_ffmpeg_err: drop boilerplate lines, keep the last 15 meaningful
ones, or a placeholder when none remain. -/
def _clean_ffmpeg_err (raw : String) : String :=
  let meaningful_lines := (pySplitlines raw).filter (fun ln => !ffmpegIgnoreLine ln)
  if meaningful_lines.isEmpty then "(no ffmpeg stderr captured)"
  else String.intercalate "\n" (lastSlice 15 meaningful_lines)

/-! ## Media probing (src/main.py lines 551-630) -/

/-- One entry of the streams array that ffprobe -print_format json emits,
as the probe reads it: codec type, the optional textual sample rate and bit
rate fields, and the parsed disposition.attached_pic flag. -/
structure StreamInfo where
  codec_type : String
  sample_rate : Option String
  bit_rate : Option String
  attached_pic : Bool
deriving DecidableEq

/-- The probe result tuple (has_audio, has_real_video, has_attached_pic,
sample_rate_hz, bit_rate_bps). -/
structure ProbeResult where
  has_audio : Bool
  has_real_video : Bool
  has_attached_pic : Bool
  sample_rate : Option Nat
  bit_rate : Option Nat
deriving DecidableEq

/-- What the environment supplies to one probe call.  method1 is the ffprobe
JSON route: some streams when the tool exited 0 with parseable output, none
when that route yielded no usable result (missing tool, nonzero exit, empty
or malformed output).  method2 is the captured stderr of the ffmpeg -i
fallback (none when nothing was captured, treated as empty text). -/
structure ProbeEnv where
  method1 : Option (List StreamInfo)
  method2 : Option String

/-- The loop body over the JSON streams: the first audio stream sets
has_audio and records numeric rates; video streams set the attached-picture
or the real-video flag. -/
def probeStep (acc : ProbeResult) (stream : StreamInfo) : ProbeResult :=
  if stream.codec_type = "audio" && !acc.has_audio then
    { acc with
      has_audio := true
      sample_rate :=
        match stream.sample_rate with
        | some sr_str => if pyIsDigit sr_str then some (natOfDigits sr_str.data)
                         else acc.sample_rate
        | none => acc.sample_rate
      bit_rate :=
        match stream.bit_rate with
        | some br_str => if pyIsDigit br_str then some (natOfDigits br_str.data)
                         else acc.bit_rate
        | none => acc.bit_rate }
  else if stream.codec_type = "video" then
    if stream.attached_pic then { acc with has_attached_pic := true }
    else { acc with has_real_video := true }
  else acc

/-- One left-to-right pass implementing re.search for digits, optional
whitespace, then the literal unit: run carries the digits of the current
maximal digit run in reverse; when the run ends, the tail (with whitespace
stripped) must start with the unit.  The unit is never empty here, so a run
ending at the end of input never matches. -/
def scanNumGo (unit : List Char) (run : List Char) : List Char → Option Nat
  | [] => none
  | c :: rest =>
    if c.isDigit then scanNumGo unit (c :: run) rest
    else if !run.isEmpty && unit.isPrefixOf ((c :: rest).dropWhile isPySpace) then
      some (natOfDigits run.reverse)
    else scanNumGo unit [] rest

/-- re.search for the pattern digits, optional whitespace, then the given
literal unit; returns the digit group of the leftmost match. -/
def scanNumBefore (unit : List Char) (cs : List Char) : Option Nat :=
  scanNumGo unit [] cs

/-- Method 2 of the probe: parse the ffmpeg -i free-text diagnostics. -/
def probeMethod2 (stderr : Option String) : ProbeResult :=
  let output := stderr.getD ""
  let has_audio := strContains output "Audio:"
  let has_real_video := strContains output "Video:"
  if has_audio then
    let sr := scanNumBefore "Hz".data output.data
    let br := scanNumBefore "kb/s".data output.data
    { has_audio := true
      has_real_video := has_real_video
      has_attached_pic := false
      sample_rate := some (sr.getD 44100)
      bit_rate := br.map (fun n => n * 1000) }
  else
    { has_audio := false
      has_real_video := has_real_video
      has_attached_pic := false
      sample_rate := none
      bit_rate := none }

/-- The probe body without the cache: method 1 when it yielded streams
(defaulting an unreported audio sample rate to 44100), otherwise method 2. -/
def probeUncached (env : ProbeEnv) : ProbeResult :=
  match env.method1 with
  | some streams =>
    let acc := streams.foldl probeStep ⟨false, false, false, none, none⟩
    if acc.has_audio && acc.sample_rate.isNone then { acc with sample_rate := some 44100 }
    else acc
  | none => probeMethod2 env.method2

/-! ## The probe cache (src/main.py lines 547-548, 559-561, 601-603, 628-630) -/

/-- The process-wide _MEDIA_INFO_CACHE, as an association list keyed by
resolved path; a key is only ever inserted when absent, matching the dict
writes in the source. -/
def ProbeCache := List (FPath × ProbeResult)

/-- dict lookup. -/
def cacheLookup (cache : ProbeCache) (k : FPath) : Option ProbeResult :=
  (cache.find? (fun kv => kv.1 = k)).map (fun kv => kv.2)

/-- _probe_media_info: resolve the path, return the cached result when
present, otherwise probe and record the result under the resolved path.
resolve models path.expanduser().resolve(); env is what the external tools
report for this call. -/
def _probe_media_info (resolve : FPath → FPath) (cache : ProbeCache)
    (path : FPath) (env : ProbeEnv) : ProbeResult × ProbeCache :=
  let p := resolve path
  match cacheLookup cache p with
  | some r => (r, cache)
  | none =>
    let result := probeUncached env
    (result, (p, result) :: cache)

/-- A run of successive probe calls, threading the cache through; each call
comes with the environment the external tools would report at that moment. -/
def runProbes (resolve : FPath → FPath) (cache : ProbeCache) :
    List (FPath × ProbeEnv) → List ProbeResult × ProbeCache
  | [] => ([], cache)
  | (path, env) :: rest =>
    let step := _probe_media_info resolve cache path env
    let restRun := runProbes resolve step.2 rest
    (step.1 :: restRun.1, restRun.2)

/-! ## Conversion engine (src/main.py lines 645-756) -/

/-- The resolved transcoder executable; module default, the resolver glue is
outside the core. -/
def ffmpegExe : String := "ffmpeg"

/-- Shortest round-trip decimal of the IEEE double 432/440, as the f-string
in the source renders it. -/
def ratioRepr : String := "0.9818181818181818"

/-- Shortest round-trip decimal of the IEEE double 1/(432/440). -/
def invRatioRepr : String := "1.0185185185185186"

/-- The three-stage audio filter chain string built at src/main.py line 668. -/
def convFilterChain (original_sr target_sr : Nat) : String :=
  "asetrate=" ++ toString original_sr ++ "*" ++ ratioRepr ++
    ",atempo=" ++ invRatioRepr ++ ",aresample=" ++ toString target_sr

/-- Result of one external-tool invocation: exit code and captured stderr
(none models an uncaptured stream). -/
structure RunResult where
  returncode : Int
  stderr : Option String
deriving DecidableEq

/-- The stream mapping and codec-copy part of the command plus the filter
chain (src/main.py lines 699-719): MKV keeps everything, other video
containers map the stream families explicitly, audio-only outputs map audio
and optionally the attached cover art. -/
def buildBaseCmd (src : FPath) (chain ext : String) (has_real_video has_attached_pic : Bool) :
    List String :=
  let is_video_container := VIDEO_CONTAINER_EXTS.contains ext
  if has_real_video && is_video_container then
    if ext = ".mkv" then
      [ffmpegExe, "-y", "-i", src.toStr, "-map", "0", "-map_metadata", "0",
       "-map_chapters", "0", "-copy_unknown", "-c", "copy", "-filter:a", chain]
    else
      [ffmpegExe, "-y", "-i", src.toStr, "-map", "0:v?", "-map", "0:a?", "-map", "0:s?",
       "-map", "0:d?", "-map_metadata", "0", "-map_chapters", "0",
       "-c:v", "copy", "-c:s", "copy", "-c:d", "copy", "-filter:a", chain]
  else
    let map_args :=
      if !has_real_video && has_attached_pic && [".mp3", ".m4a", ".flac"].contains ext then
        ["-map", "0:a?", "-map", "0:v?", "-c:v", "copy"]
      else ["-map", "0:a?"]
    [ffmpegExe, "-y", "-i", src.toStr] ++ map_args ++ ["-af", chain]

/-- dst.suffix.lower() as the engine computes it. -/
def convExt (dst : FPath) : String :=
  pyLower (pySuffix dst.name)

/-- The base command of a job. -/
def convBase (src dst : FPath) (original_sr target_sr : Nat)
    (has_real_video has_attached_pic : Bool) : List String :=
  buildBaseCmd src (convFilterChain original_sr target_sr) (convExt dst)
    has_real_video has_attached_pic

/-- The high-quality attempt command: base, adjusted HQ codec options, output. -/
def convHqCmd (src dst : FPath) (original_sr target_sr : Nat) (obr : Option Nat)
    (has_real_video has_attached_pic : Bool) : List String :=
  convBase src dst original_sr target_sr has_real_video has_attached_pic ++
    _adjust_bitrate_in_options (_codec_for_ext (convExt dst) false) obr ++ [dst.toStr]

/-- The subtitle sub-retry command: the HQ command with -c:s mov_text forced
in front of the codec options. -/
def convSubCmd (src dst : FPath) (original_sr target_sr : Nat) (obr : Option Nat)
    (has_real_video has_attached_pic : Bool) : List String :=
  convBase src dst original_sr target_sr has_real_video has_attached_pic ++
    ["-c:s", "mov_text"] ++
    _adjust_bitrate_in_options (_codec_for_ext (convExt dst) false) obr ++ [dst.toStr]

/-- The safe-tier attempt command: base, adjusted safe codec options, output. -/
def convSafeCmd (src dst : FPath) (original_sr target_sr : Nat) (obr : Option Nat)
    (has_real_video has_attached_pic : Bool) : List String :=
  convBase src dst original_sr target_sr has_real_video has_attached_pic ++
    _adjust_bitrate_in_options (_codec_for_ext (convExt dst) true) obr ++ [dst.toStr]

/-- The guard of the MP4-family subtitle sub-retry (src/main.py lines
732-737): real video, a video container in the MP4 family, and a diagnostic
mentioning subtitles together with a codec/support complaint. -/
def subRetryCond (ext : String) (has_real_video : Bool) (stderr0 : Option String) : Bool :=
  has_real_video && VIDEO_CONTAINER_EXTS.contains ext &&
    (ext = ".mp4" || ext = ".m4v" || ext = ".mov") &&
    (let err_lower := pyLower (stderr0.getD "")
     strContains err_lower "subtitle" &&
       (strContains err_lower "codec" || strContains err_lower "not supported" ||
        strContains err_lower "could not write header"))

/-- proc.stderr cleaned, with the placeholder when nothing was captured
(src/main.py lines 729 and 754). -/
def cleanedOf (stderr : Option String) : String :=
  match stderr with
  | some e => _clean_ffmpeg_err e
  | none => "(no ffmpeg stderr captured)"

/-- The diagnostic of the final CalledProcessError (src/main.py line 755). -/
def failMessage (hqStderr safeStderr : Option String) : String :=
  "HQ error:\n" ++ cleanedOf hqStderr ++ "\nSafe error:\n" ++ cleanedOf safeStderr

/-- Equality on success-or-diagnostic values is decidable. -/
def exceptDecEq : (a b : Except String Unit) → Decidable (a = b)
  | .ok (), .ok () => isTrue rfl
  | .ok (), .error _ => isFalse (by simp)
  | .error _, .ok () => isFalse (by simp)
  | .error x, .error y =>
    if h : x = y then isTrue (by rw [h]) else isFalse (by simp [h])

instance : DecidableEq (Except String Unit) := exceptDecEq

/-- Outcome of convert_to_432: the commands issued in order, and success or
the raised diagnostic. -/
structure ConvOutcome where
  attempts : List (List String)
  result : Except String Unit
deriving DecidableEq

/-- convert_to_432: the retry ladder.  runner is the external tool: the n-th
invocation of this call returns runner n.  The mkdir of the destination
parent and logging are side effects outside the model. -/
def convert_to_432 (runner : Nat → RunResult) (src dst : FPath)
    (original_sr target_sr : Nat) (original_bitrate_bps : Option Nat)
    (has_real_video has_attached_pic : Bool) : ConvOutcome :=
  let hq_cmd := convHqCmd src dst original_sr target_sr original_bitrate_bps
    has_real_video has_attached_pic
  let proc := runner 0
  if proc.returncode = 0 then ⟨[hq_cmd], .ok ()⟩
  else if subRetryCond (convExt dst) has_real_video proc.stderr then
    let sub_cmd := convSubCmd src dst original_sr target_sr original_bitrate_bps
      has_real_video has_attached_pic
    let proc_sub := runner 1
    if proc_sub.returncode = 0 then ⟨[hq_cmd, sub_cmd], .ok ()⟩
    else
      let safe_cmd := convSafeCmd src dst original_sr target_sr original_bitrate_bps
        has_real_video has_attached_pic
      let proc_safe := runner 2
      if proc_safe.returncode = 0 then ⟨[hq_cmd, sub_cmd, safe_cmd], .ok ()⟩
      else ⟨[hq_cmd, sub_cmd, safe_cmd], .error (failMessage proc.stderr proc_safe.stderr)⟩
  else
    let safe_cmd := convSafeCmd src dst original_sr target_sr original_bitrate_bps
      has_real_video has_attached_pic
    let proc_safe := runner 1
    if proc_safe.returncode = 0 then ⟨[hq_cmd, safe_cmd], .ok ()⟩
    else ⟨[hq_cmd, safe_cmd], .error (failMessage proc.stderr proc_safe.stderr)⟩

/-! ## The pitch and duration algebra of the filter chain -/

/-- Modelled from the spec: the external transcoder itself is a black box,
so an audio signal is abstracted by its duration, a representative pitch
frequency, and its nominal sample rate, all exact rationals. -/
structure AudioSig where
  dur : ℚ
  pitch : ℚ
  rate : ℚ

/-- Modelled from the spec: asetrate reinterprets the samples at rate r,
scaling duration by rate/r and pitch by r/rate. -/
def fAsetrate (r : ℚ) (s : AudioSig) : AudioSig :=
  ⟨s.dur * (s.rate / r), s.pitch * (r / s.rate), r⟩

/-- Modelled from the spec: atempo t plays t times faster, scaling duration
by 1/t and leaving pitch alone. -/
def fAtempo (t : ℚ) (s : AudioSig) : AudioSig :=
  ⟨s.dur / t, s.pitch, s.rate⟩

/-- Modelled from the spec: aresample changes the sample rate preserving
duration and pitch. -/
def fAresample (r : ℚ) (s : AudioSig) : AudioSig :=
  ⟨s.dur, s.pitch, r⟩

/-- The exact pitch scale the conversion targets. -/
def pitchScale : ℚ := 432 / 440

/-- The chain of src/main.py line 668 with exact arithmetic: asetrate to
original_sr times 432/440, atempo of the inverse factor, resample to the
target rate. -/
def applyChain (original_sr target_sr : ℚ) (s : AudioSig) : AudioSig :=
  fAresample target_sr (fAtempo (1 / pitchScale) (fAsetrate (original_sr * pitchScale) s))

/-! ## Concrete fixtures used by the witness theorems -/

/-- The full ordered candidate list of the backup-name search. -/
def backupCandidates (p : FPath) : List FPath :=
  (List.range 1000).map (backupCand p)

/-- Witness original file. -/
def swapOrig : FPath := ⟨"d", "a.mp3"⟩

/-- Witness candidate (temp) file. -/
def swapCand : FPath := ⟨"d", "a.__tmp432__.mp3"⟩

/-- The backup name the protocol picks for the witness original. -/
def swapBak : FPath := ⟨"d", "a.mp3.bak"⟩

/-- Witness filesystem: the original holds content 1, the candidate content 2. -/
def swapFS : FSMap := fun q =>
  if q = swapOrig then some 1 else if q = swapCand then some 2 else none

/-- Witness runner: the high-quality attempt fails, every later one succeeds. -/
def ladderRunner : Nat → RunResult := fun n =>
  if n = 0 then ⟨1, some "boom"⟩ else ⟨0, some ""⟩

/-- Witness runner for the subtitle path: the high-quality attempt fails with
a subtitle-codec complaint and the sub-retry fails too. -/
def subRunner : Nat → RunResult := fun n =>
  if n = 0 then ⟨1, some "Subtitle codec 94213 is not supported"⟩
  else ⟨1, some "still failing"⟩

/-- Witness video source path. -/
def srcVid : FPath := ⟨"in", "movie.mp4"⟩

/-- Witness video destination path. -/
def dstVid : FPath := ⟨"out", "movie.mp4"⟩

/-- Witness audio source path. -/
def srcAud : FPath := ⟨"in", "song.mp3"⟩

/-- Witness audio destination path. -/
def dstAud : FPath := ⟨"out", "song_432.mp3"⟩

/-- Witness probe environment: the JSON route fails, the fallback diagnostics
mention an audio stream. -/
def probeEnvAud : ProbeEnv :=
  ⟨none, some "Stream 0: Audio: mp3, 44100 Hz, 192 kb/s"⟩

/-- A second witness probe environment with different observations. -/
def probeEnvVid : ProbeEnv :=
  ⟨some [⟨"video", none, none, false⟩, ⟨"audio", some "48000", some "256000", false⟩], none⟩

/-- A cached probe result used by the cache witness. -/
def probeRes0 : ProbeResult := ⟨true, false, false, some 44100, some 192000⟩

/-! # Theorems -/

/-! ## C5: output extension choice -/

/-- C5, counterexample.  The claim says the extension itself is returned in
the real-video and supported-audio cases, but the source lower-cases first
and substitutes .mp4 for an empty extension under real video: the empty
extension with real video yields .mp4, and .FLAC without real video yields
.flac, which is neither the extension itself nor .mp3. -/
theorem choose_output_ext_claim_false :
    _choose_output_ext "" true = ".mp4" ∧ ".mp4" ≠ "" ∧
    _choose_output_ext ".FLAC" false = ".flac" ∧
    ".flac" ≠ ".FLAC" ∧ ".flac" ≠ ".mp3" := by decide

/-- C5, amended: for every input extension and has_real_video flag,
_choose_output_ext lower-cases the extension and returns: .mp4 when the
source has real video and the extension is empty; the lower-cased extension
when the source has real video otherwise; .mp3 when there is no real video
and the lower-cased extension is .wma; the lower-cased extension when there
is no real video and it is a supported audio output type; and .mp3
otherwise. -/
theorem choose_output_ext_cases (e : String) (v : Bool) :
    (v = true → pyLower e ≠ "" → _choose_output_ext e v = pyLower e) ∧
    (v = true → pyLower e = "" → _choose_output_ext e v = ".mp4") ∧
    (v = false → pyLower e = ".wma" → _choose_output_ext e v = ".mp3") ∧
    (v = false → pyLower e ≠ ".wma" → OUTPUT_EXTS.contains (pyLower e) = true →
      _choose_output_ext e v = pyLower e) ∧
    (v = false → pyLower e ≠ ".wma" → OUTPUT_EXTS.contains (pyLower e) = false →
      _choose_output_ext e v = ".mp3") := by
  refine ⟨?_, ?_, ?_, ?_, ?_⟩
  · intro hv h
    subst hv
    simp only [_choose_output_ext]
    rw [if_pos trivial, if_neg h]
  · intro hv h
    subst hv
    simp only [_choose_output_ext]
    rw [if_pos trivial, if_pos h]
  · intro hv h
    subst hv
    simp only [_choose_output_ext]
    rw [if_neg (by simp), if_pos h]
  · intro hv h h2
    subst hv
    simp only [_choose_output_ext]
    rw [if_neg (by simp), if_neg h, if_pos h2]
  · intro hv h h2
    subst hv
    simp only [_choose_output_ext]
    rw [if_neg (by simp), if_neg h, if_neg (by simp only [h2]; exact Bool.false_ne_true)]

/-- C5, witness: the amended theorem applied at the .AVI-with-real-video and
the .flac-audio instances. -/
theorem choose_output_ext_cases_witness :
    _choose_output_ext ".AVI" true = pyLower ".AVI" ∧
    _choose_output_ext ".flac" false = pyLower ".flac" :=
  ⟨(choose_output_ext_cases ".AVI" true).1 rfl (by decide),
   (choose_output_ext_cases ".flac" false).2.2.2.1 rfl (by decide) (by decide)⟩

/-! ## C4: bitrate adjustment lowers, never raises -/

/-- C4: when the option list has a -b:a token followed by a bitrate token of
target value t, the adjustment pass with a known original bit rate rewrites
the token after -b:a to the original rate rendered in kilobits exactly when
the original is lower than the target, and leaves the options untouched
otherwise — it never raises the target. -/
theorem adjust_bitrate_lowers (opts : List String) (orig : Nat) (i : Nat)
    (tok : String) (t : Int)
    (hidx : opts.findIdx? (fun x => x == "-b:a") = some i)
    (htok : opts[i + 1]? = some tok)
    (hparse : bitrateTokenBps tok = some t) :
    (((orig : Int) < t) →
      _adjust_bitrate_in_options opts (some orig) = opts.set (i + 1) (kbpsToken orig)) ∧
    (¬((orig : Int) < t) → _adjust_bitrate_in_options opts (some orig) = opts) := by
  constructor <;> intro hlt <;> simp [_adjust_bitrate_in_options, hidx, htok, hparse, hlt]

/-- C4, witness: with the .mp3 high-quality tier (default 320k) and original
bit rate 192000 bps, the adjusted options carry 192k and no longer 320k. -/
theorem adjust_bitrate_lowers_witness :
    _adjust_bitrate_in_options (_codec_for_ext ".mp3" false) (some 192000) =
      ["-c:a", "libmp3lame", "-b:a", "192k", "-compression_level", "0"] ∧
    "192k" ∈ _adjust_bitrate_in_options (_codec_for_ext ".mp3" false) (some 192000) ∧
    "320k" ∉ _adjust_bitrate_in_options (_codec_for_ext ".mp3" false) (some 192000) := by
  have h := (adjust_bitrate_lowers (_codec_for_ext ".mp3" false) 192000 2 "320k" 320000
    (by decide) (by decide) (by decide)).1 (by decide)
  rw [h]
  refine ⟨by decide, by decide, by decide⟩

/-! ## C10: the adjustment pass is a single-token frame -/

/-- C10: for every option list and original bit rate, the adjustment pass is
pure, preserves the length of the list, changes at most the token directly
after the first -b:a token, and returns the list unchanged when no -b:a
token occurs (as in the lossless .flac and .wav tiers). -/
theorem adjust_bitrate_frame (opts : List String) (obr : Option Nat) :
    ((_adjust_bitrate_in_options opts obr).length = opts.length) ∧
    (∀ j : Nat, (∀ i, opts.findIdx? (fun x => x == "-b:a") = some i → j ≠ i + 1) →
      (_adjust_bitrate_in_options opts obr)[j]? = opts[j]?) ∧
    (opts.findIdx? (fun x => x == "-b:a") = none →
      _adjust_bitrate_in_options opts obr = opts) := by
  unfold _adjust_bitrate_in_options
  match obr with
  | none => exact ⟨rfl, fun _ _ => rfl, fun _ => rfl⟩
  | some orig =>
    cases hidx : opts.findIdx? (fun x => x == "-b:a") with
    | none => exact ⟨rfl, fun _ _ => rfl, fun _ => rfl⟩
    | some i =>
      refine ⟨?_, ?_, ?_⟩
      · cases htok : opts[i + 1]? with
        | none => simp [htok]
        | some tok =>
          cases hparse : bitrateTokenBps tok with
          | none => simp [htok, hparse]
          | some t =>
            by_cases hlt : (orig : Int) < t <;> simp [htok, hparse, hlt]
      · intro j hj
        have hji : j ≠ i + 1 := hj i rfl
        cases htok : opts[i + 1]? with
        | none => simp [htok]
        | some tok =>
          cases hparse : bitrateTokenBps tok with
          | none => simp [htok, hparse]
          | some t =>
            by_cases hlt : (orig : Int) < t <;>
              simp [htok, hparse, hlt, List.getElem?_set_ne (Ne.symm hji)]
      · intro hnone
        exact absurd hnone (by simp)

/-- C10, witness: the lossless tiers have no -b:a token, so the pass returns
them unchanged. -/
theorem adjust_bitrate_frame_witness :
    _adjust_bitrate_in_options (_codec_for_ext ".flac" false) (some 1000) =
      _codec_for_ext ".flac" false ∧
    _adjust_bitrate_in_options (_codec_for_ext ".wav" true) (some 1000) =
      _codec_for_ext ".wav" true :=
  ⟨(adjust_bitrate_frame (_codec_for_ext ".flac" false) (some 1000)).2.2 (by decide),
   (adjust_bitrate_frame (_codec_for_ext ".wav" true) (some 1000)).2.2 (by decide)⟩

/-! ## C7: backup-name search -/

/-- The numbered loop of the backup search is a first-match search over the
corresponding slice of candidate names. -/
theorem backupScan_eq_find (fsHas : FPath → Bool) (p : FPath) (fuel : Nat) :
    ∀ i, backupScan fsHas p i fuel =
      ((List.range' i fuel).map
        (fun k => p.with_name (p.name ++ ".bak" ++ toString k))).find?
        (fun c => !(fsHas c)) := by
  induction fuel with
  | zero => intro i; simp [backupScan]
  | succ n ih =>
    intro i
    rw [List.range'_succ, List.map_cons]
    by_cases h : fsHas (p.with_name (p.name ++ ".bak" ++ toString i))
    · rw [List.find?_cons_of_neg _ (by simp [h])]
      simp only [backupScan, h]
      exact ih (i + 1)
    · rw [List.find?_cons_of_pos _ (by simp [h])]
      simp [backupScan, h]

/-- _unique_backup_path is the first-match search over the full candidate
list name.bak, name.bak1, ..., name.bak999. -/
theorem unique_backup_eq_find (fsHas : FPath → Bool) (p : FPath) :
    _unique_backup_path fsHas p = (backupCandidates p).find? (fun c => !(fsHas c)) := by
  have hsplit : backupCandidates p =
      backupCand p 0 :: (List.range' 1 999).map (backupCand p) := by
    rw [backupCandidates, List.range_eq_range']
    rw [show (1000 : Nat) = 999 + 1 from rfl, List.range'_succ, List.map_cons]
  have hmap : (List.range' 1 999).map (backupCand p) =
      (List.range' 1 999).map (fun k => p.with_name (p.name ++ ".bak" ++ toString k)) := by
    refine List.map_congr_left ?_
    intro k hk
    have h1 : 1 ≤ k := (List.mem_range'_1.mp hk).1
    rw [backupCand, if_neg (by omega)]
  rw [hsplit, hmap]
  have h0 : backupCand p 0 = p.with_name (p.name ++ ".bak") := rfl
  rw [h0]
  by_cases h : fsHas (p.with_name (p.name ++ ".bak")) = true
  · rw [List.find?_cons_of_neg _ (by simp [h])]
    simp only [_unique_backup_path]
    rw [if_neg (by simp [h])]
    exact backupScan_eq_find fsHas p 999 1
  · rw [List.find?_cons_of_pos _ (by simp [h])]
    simp only [_unique_backup_path]
    rw [if_pos (by simp [h])]

/-- A returned backup name is free on the filesystem snapshot. -/
theorem unique_backup_not_exists (fsHas : FPath → Bool) (p b : FPath)
    (h : _unique_backup_path fsHas p = some b) : fsHas b = false := by
  rw [unique_backup_eq_find] at h
  have := List.find?_some h
  simpa using this

/-- C7: the backup-name computation returns the first non-existing candidate
among name.bak, name.bak1, name.bak2, ... (1000 candidates in all), and
signals the error exactly when every candidate already exists. -/
theorem unique_backup_first_free (fsHas : FPath → Bool) (p : FPath) :
    _unique_backup_path fsHas p = (backupCandidates p).find? (fun c => !(fsHas c)) ∧
    (_unique_backup_path fsHas p = none ↔ ∀ c ∈ backupCandidates p, fsHas c = true) := by
  refine ⟨unique_backup_eq_find fsHas p, ?_⟩
  rw [unique_backup_eq_find, List.find?_eq_none]
  constructor
  · intro h c hc
    have := h c hc
    simpa using this
  · intro h c hc
    simp [h c hc]

/-- C7, witness: on an empty filesystem the plain .bak name is chosen, and it
is the first candidate. -/
theorem unique_backup_first_free_witness :
    _unique_backup_path (fun _ => false) swapOrig =
      (backupCandidates swapOrig).find? (fun c => !((fun _ : FPath => false) c)) ∧
    _unique_backup_path (fun _ => false) swapOrig = some swapBak :=
  ⟨(unique_backup_first_free (fun _ => false) swapOrig).1, by decide⟩

/-! ## C3: the filter chain preserves duration and scales pitch by 432/440 -/

/-- C3: for every original sample rate (nonzero, as a sample rate is) and
every target sample rate, the chain asetrate to original times 432/440,
atempo of the inverse ratio, aresample to the target leaves the duration
exactly unchanged and multiplies the pitch by exactly 432/440. -/
theorem chain_duration_pitch_exact (original_sr target_sr : ℚ) (s : AudioSig)
    (hrate : s.rate = original_sr) (h0 : original_sr ≠ 0) :
    (applyChain original_sr target_sr s).dur = s.dur ∧
    (applyChain original_sr target_sr s).pitch = (432 / 440) * s.pitch := by
  subst hrate
  unfold applyChain fAresample fAtempo fAsetrate pitchScale
  constructor
  · show s.dur * (s.rate / (s.rate * (432 / 440))) / (1 / (432 / 440)) = s.dur
    field_simp
    ring
  · show s.pitch * (s.rate * (432 / 440) / s.rate) = 432 / 440 * s.pitch
    field_simp
    ring

/-- C3, witness: the chain applied to a 180-second, 440 Hz, 44.1 kHz signal
with target rate 48 kHz. -/
theorem chain_duration_pitch_exact_witness :
    (applyChain 44100 48000 ⟨180, 440, 44100⟩).dur = 180 ∧
    (applyChain 44100 48000 ⟨180, 440, 44100⟩).pitch = (432 / 440) * 440 := by
  have h := chain_duration_pitch_exact 44100 48000 ⟨180, 440, 44100⟩ rfl (by norm_num)
  exact h

/-! ## C6: probe invariant -/

/-- C6: for every probe environment, the probe result has a sample rate
whenever it reports audio (44100 when nothing numeric was reported), and
when both methods fail — the JSON route yields nothing and the fallback
diagnostics mention neither an audio nor a video stream — the result is
non-media: no audio, no video, no rates. -/
theorem probe_invariant (env : ProbeEnv) :
    ((probeUncached env).has_audio = true → (probeUncached env).sample_rate.isSome = true) ∧
    (env.method1 = none →
      strContains (env.method2.getD "") "Audio:" = false →
      strContains (env.method2.getD "") "Video:" = false →
      probeUncached env = ⟨false, false, false, none, none⟩) := by
  obtain ⟨m1, m2⟩ := env
  constructor
  · intro ha
    cases m1 with
    | some streams =>
      set acc := streams.foldl probeStep ⟨false, false, false, none, none⟩ with hacc
      have hEq : probeUncached ⟨some streams, m2⟩ =
          if acc.has_audio && acc.sample_rate.isNone then { acc with sample_rate := some 44100 }
          else acc := rfl
      rw [hEq] at ha ⊢
      by_cases hcond : (acc.has_audio && acc.sample_rate.isNone) = true
      · rw [if_pos hcond] at ha ⊢
        rfl
      · rw [if_neg hcond] at ha ⊢
        cases hE : acc.sample_rate with
        | none => exact absurd (by rw [ha, hE]; rfl) hcond
        | some v => simp [hE]
    | none =>
      have hEq : probeUncached ⟨none, m2⟩ = probeMethod2 m2 := rfl
      rw [hEq] at ha ⊢
      simp only [probeMethod2] at ha ⊢
      by_cases hA : strContains (m2.getD "") "Audio:" = true
      · rw [if_pos hA] at ha ⊢
        rfl
      · rw [if_neg hA] at ha ⊢
        exact absurd ha (by simp)
  · intro hm hA hV
    cases m1 with
    | some streams => exact Option.noConfusion hm
    | none =>
      have hA2 : strContains (m2.getD "") "Audio:" = false := hA
      have hV2 : strContains (m2.getD "") "Video:" = false := hV
      have hEq : probeUncached ⟨none, m2⟩ = probeMethod2 m2 := rfl
      rw [hEq]
      simp only [probeMethod2]
      rw [if_neg (by simp [hA2])]
      rw [hV2]

/-- C6, witness: a probe whose JSON route fails but whose fallback
diagnostics mention audio reports audio, so the theorem yields a sample
rate. -/
theorem probe_invariant_witness :
    (probeUncached probeEnvAud).has_audio = true ∧
    (probeUncached probeEnvAud).sample_rate.isSome = true :=
  ⟨by decide, (probe_invariant probeEnvAud).1 (by decide)⟩

/-! ## C2: the replace-with-backup protocol -/

/-- C2, counterexample.  The claim says the rollback ensures the original
path is never left missing, but the rollback is best-effort: when the second
rename fails and the rollback rename fails as well, the error is re-raised
with the original path missing (its content survives only at the backup
path). -/
theorem replace_protocol_claim_false :
    (_replace_original_with_backup false true true swapFS swapOrig swapCand).isErr = true ∧
    (_replace_original_with_backup false true true swapFS swapOrig swapCand).state
      swapOrig = none ∧
    (_replace_original_with_backup false true true swapFS swapOrig swapCand).state
      swapBak = some 1 := by
  refine ⟨by decide, by decide, by decide⟩

/-- C2, amended: the protocol renames the original to a fresh backup name and
then renames the candidate onto the original path.  If the first rename
fails, the state is untouched and the error is re-raised.  If the second
rename fails after the first succeeded, the rollback is attempted and the
error is re-raised regardless: when the rollback succeeds the original path
holds the original content again (it is not left missing); when the rollback
also fails the original path is missing but the backup path still holds the
original content.  In every outcome the original content survives at the
original path or at the backup path, and on success the backup entry holds
it. -/
theorem replace_protocol_rollback (f1 f2 f3 : Bool) (fs : FSMap)
    (original new_file backup : FPath) (a b : Nat)
    (hA : fs original = some a) (hB : fs new_file = some b)
    (hne : new_file ≠ original)
    (hbk : _unique_backup_path (fun q => (fs q).isSome) original = some backup) :
    (f1 = true →
      _replace_original_with_backup f1 f2 f3 fs original new_file = .err fs) ∧
    (f1 = false → f2 = false →
      (_replace_original_with_backup f1 f2 f3 fs original new_file).isOk = true ∧
      (_replace_original_with_backup f1 f2 f3 fs original new_file).state original = some b ∧
      (_replace_original_with_backup f1 f2 f3 fs original new_file).state backup = some a ∧
      (_replace_original_with_backup f1 f2 f3 fs original new_file).state new_file = none) ∧
    (f1 = false → f2 = true → f3 = false →
      (_replace_original_with_backup f1 f2 f3 fs original new_file).isErr = true ∧
      (_replace_original_with_backup f1 f2 f3 fs original new_file).state original = some a ∧
      (_replace_original_with_backup f1 f2 f3 fs original new_file).state new_file = some b ∧
      (_replace_original_with_backup f1 f2 f3 fs original new_file).state backup = none) ∧
    (f1 = false → f2 = true → f3 = true →
      (_replace_original_with_backup f1 f2 f3 fs original new_file).isErr = true ∧
      (_replace_original_with_backup f1 f2 f3 fs original new_file).state original = none ∧
      (_replace_original_with_backup f1 f2 f3 fs original new_file).state backup = some a ∧
      (_replace_original_with_backup f1 f2 f3 fs original new_file).state new_file = some b) ∧
    ((_replace_original_with_backup f1 f2 f3 fs original new_file).state original = some a ∨
      (_replace_original_with_backup f1 f2 f3 fs original new_file).state backup = some a) := by
  have hbkFree : fs backup = none := by
    have := unique_backup_not_exists (fun q => (fs q).isSome) original backup hbk
    simpa [Option.isSome_iff_exists] using this
  have hbo : backup ≠ original := fun h => by rw [h, hA] at hbkFree; cases hbkFree
  have hbn : new_file ≠ backup := fun h => by rw [← h, hB] at hbkFree; cases hbkFree
  have hstep : _replace_original_with_backup f1 f2 f3 fs original new_file =
      match osReplace f1 fs original backup with
      | none => .err (swapRollback f3 fs original backup)
      | some fs1 =>
        match osReplace f2 fs1 new_file original with
        | none => .err (swapRollback f3 fs1 original backup)
        | some fs2 => .ok fs2 := by
    rw [_replace_original_with_backup, hbk]
  cases f1 with
  | true =>
    have hroll : swapRollback f3 fs original backup = fs := by
      rw [swapRollback, if_neg (by simp [hA])]
    have hR : _replace_original_with_backup true f2 f3 fs original new_file = .err fs := by
      rw [hstep]
      show SwapResult.err (swapRollback f3 fs original backup) = _
      rw [hroll]
    rw [hR]
    exact ⟨fun _ => rfl, fun h _ => Bool.noConfusion h, fun h _ _ => Bool.noConfusion h,
      fun h _ _ => Bool.noConfusion h, Or.inl hA⟩
  | false =>
    have h1 : osReplace false fs original backup =
        some (fun q => if q = backup then some a else if q = original then none else fs q) := by
      rw [osReplace, if_neg (by simp), hA]
    have hstep2 : _replace_original_with_backup false f2 f3 fs original new_file =
        match osReplace f2 (fun q => if q = backup then some a
            else if q = original then none else fs q) new_file original with
        | none => .err (swapRollback f3 (fun q => if q = backup then some a
            else if q = original then none else fs q) original backup)
        | some fs2 => .ok fs2 := by
      rw [hstep, h1]
    have hf1o : (if original = backup then some a else if original = original then none
        else fs original) = none := by
      simp [Ne.symm hbo]
    have hf1b : (if backup = backup then some a else if backup = original then none
        else fs backup) = some a := by
      simp
    have hf1n : (if new_file = backup then some a else if new_file = original then none
        else fs new_file) = some b := by
      simp [hbn, hne, hB]
    cases f2 with
    | false =>
      have h2 : osReplace false (fun q => if q = backup then some a
          else if q = original then none else fs q) new_file original =
          some (fun q => if q = original then some b else if q = new_file then none
            else if q = backup then some a else if q = original then none else fs q) := by
        rw [osReplace, if_neg (by simp), hf1n]
      have hR : _replace_original_with_backup false false f3 fs original new_file =
          .ok (fun q => if q = original then some b else if q = new_file then none
            else if q = backup then some a else if q = original then none else fs q) := by
        rw [hstep2, h2]
      rw [hR]
      refine ⟨fun h => Bool.noConfusion h, fun _ _ => ⟨rfl, ?_, ?_, ?_⟩,
        fun _ h => Bool.noConfusion h, fun _ h => Bool.noConfusion h, Or.inr ?_⟩
      · simp [SwapResult.state]
      · simp [SwapResult.state, hbo, Ne.symm hbn]
      · simp [SwapResult.state, hne]
      · simp [SwapResult.state, hbo, Ne.symm hbn]
    | true =>
      have h2 : osReplace true (fun q => if q = backup then some a
          else if q = original then none else fs q) new_file original = none := by
        rw [osReplace, if_pos rfl]
      have hRmid : _replace_original_with_backup false true f3 fs original new_file =
          .err (swapRollback f3 (fun q => if q = backup then some a
            else if q = original then none else fs q) original backup) := by
        rw [hstep2, h2]
      have hcond : ((if original = backup then some a else if original = original then none
          else fs original).isNone &&
          (if backup = backup then some a else if backup = original then none
          else fs backup).isSome) = true := by
        rw [hf1o, hf1b]
        rfl
      cases f3 with
      | false =>
        have h3 : osReplace false (fun q => if q = backup then some a
            else if q = original then none else fs q) backup original =
            some (fun q => if q = original then some a else if q = backup then none
              else if q = backup then some a else if q = original then none else fs q) := by
          rw [osReplace, if_neg (by simp), hf1b]
        have hroll : swapRollback false (fun q => if q = backup then some a
            else if q = original then none else fs q) original backup =
            fun q => if q = original then some a else if q = backup then none
              else if q = backup then some a else if q = original then none else fs q := by
          rw [swapRollback, if_pos hcond, h3]
        have hR : _replace_original_with_backup false true false fs original new_file =
            .err (fun q => if q = original then some a else if q = backup then none
              else if q = backup then some a else if q = original then none else fs q) := by
          rw [hRmid, hroll]
        rw [hR]
        refine ⟨fun h => Bool.noConfusion h, fun _ h => Bool.noConfusion h,
          fun _ _ _ => ⟨rfl, ?_, ?_, ?_⟩, fun _ _ h => Bool.noConfusion h, Or.inl ?_⟩
        · simp [SwapResult.state]
        · simp [SwapResult.state, hne, hbn, hB]
        · simp [SwapResult.state, hbo]
        · simp [SwapResult.state]
      | true =>
        have h3 : osReplace true (fun q => if q = backup then some a
            else if q = original then none else fs q) backup original = none := by
          rw [osReplace, if_pos rfl]
        have hroll : swapRollback true (fun q => if q = backup then some a
            else if q = original then none else fs q) original backup =
            fun q => if q = backup then some a else if q = original then none else fs q := by
          rw [swapRollback, if_pos hcond, h3]
        have hR : _replace_original_with_backup false true true fs original new_file =
            .err (fun q => if q = backup then some a
              else if q = original then none else fs q) := by
          rw [hRmid, hroll]
        rw [hR]
        exact ⟨fun h => Bool.noConfusion h, fun _ h => Bool.noConfusion h,
          fun _ _ h => Bool.noConfusion h, fun _ _ _ => ⟨rfl, hf1o, hf1b, hf1n⟩, Or.inr hf1b⟩

/-- C2, witness: the amended theorem at a concrete filesystem, fault-free:
the swap succeeds, the candidate content sits at the original path, the
backup holds the original content, and the candidate path is gone. -/
theorem replace_protocol_rollback_witness :
    (_replace_original_with_backup false false false swapFS swapOrig swapCand).isOk = true ∧
    (_replace_original_with_backup false false false swapFS swapOrig swapCand).state
      swapOrig = some 2 ∧
    (_replace_original_with_backup false false false swapFS swapOrig swapCand).state
      swapBak = some 1 ∧
    (_replace_original_with_backup false false false swapFS swapOrig swapCand).state
      swapCand = none :=
  (replace_protocol_rollback false false false swapFS swapOrig swapCand swapBak 1 2
    (by decide) (by decide) (by decide) (by decide)).2.1 rfl rfl

/-! ## C1: the retry ladder -/

/-- C1: for every job and every behavior of the external tool, convert tries
the high-quality command first; success at any rung returns immediately with
no further attempts; when the high-quality attempt fails, the MP4-family
subtitle sub-retry runs exactly when its guard holds; the safe-tier attempt
always follows once the high-quality attempt (and, when applicable, the
sub-retry) failed; and when the safe attempt fails too, the raised
diagnostic is the concatenation of the cleaned high-quality and safe
diagnostics. -/
theorem convert_retry_ladder (runner : Nat → RunResult) (src dst : FPath)
    (osr tsr : Nat) (obr : Option Nat) (hrv hap : Bool) :
    ((convert_to_432 runner src dst osr tsr obr hrv hap).attempts.head? =
      some (convHqCmd src dst osr tsr obr hrv hap)) ∧
    ((runner 0).returncode = 0 →
      convert_to_432 runner src dst osr tsr obr hrv hap =
        ⟨[convHqCmd src dst osr tsr obr hrv hap], .ok ()⟩) ∧
    ((runner 0).returncode ≠ 0 →
      subRetryCond (convExt dst) hrv (runner 0).stderr = true →
      (runner 1).returncode = 0 →
      convert_to_432 runner src dst osr tsr obr hrv hap =
        ⟨[convHqCmd src dst osr tsr obr hrv hap,
          convSubCmd src dst osr tsr obr hrv hap], .ok ()⟩) ∧
    ((runner 0).returncode ≠ 0 →
      subRetryCond (convExt dst) hrv (runner 0).stderr = true →
      (runner 1).returncode ≠ 0 →
      (runner 2).returncode = 0 →
      convert_to_432 runner src dst osr tsr obr hrv hap =
        ⟨[convHqCmd src dst osr tsr obr hrv hap,
          convSubCmd src dst osr tsr obr hrv hap,
          convSafeCmd src dst osr tsr obr hrv hap], .ok ()⟩) ∧
    ((runner 0).returncode ≠ 0 →
      subRetryCond (convExt dst) hrv (runner 0).stderr = true →
      (runner 1).returncode ≠ 0 →
      (runner 2).returncode ≠ 0 →
      convert_to_432 runner src dst osr tsr obr hrv hap =
        ⟨[convHqCmd src dst osr tsr obr hrv hap,
          convSubCmd src dst osr tsr obr hrv hap,
          convSafeCmd src dst osr tsr obr hrv hap],
          .error (failMessage (runner 0).stderr (runner 2).stderr)⟩) ∧
    ((runner 0).returncode ≠ 0 →
      subRetryCond (convExt dst) hrv (runner 0).stderr = false →
      (runner 1).returncode = 0 →
      convert_to_432 runner src dst osr tsr obr hrv hap =
        ⟨[convHqCmd src dst osr tsr obr hrv hap,
          convSafeCmd src dst osr tsr obr hrv hap], .ok ()⟩) ∧
    ((runner 0).returncode ≠ 0 →
      subRetryCond (convExt dst) hrv (runner 0).stderr = false →
      (runner 1).returncode ≠ 0 →
      convert_to_432 runner src dst osr tsr obr hrv hap =
        ⟨[convHqCmd src dst osr tsr obr hrv hap,
          convSafeCmd src dst osr tsr obr hrv hap],
          .error (failMessage (runner 0).stderr (runner 1).stderr)⟩) := by
  refine ⟨?_, ?_, ?_, ?_, ?_, ?_, ?_⟩
  · by_cases h0 : (runner 0).returncode = 0
    · simp [convert_to_432, h0]
    · by_cases hs : subRetryCond (convExt dst) hrv (runner 0).stderr = true
      · by_cases h1 : (runner 1).returncode = 0
        · simp [convert_to_432, h0, hs, h1]
        · by_cases h2 : (runner 2).returncode = 0 <;>
            simp [convert_to_432, h0, hs, h1, h2]
      · by_cases h1 : (runner 1).returncode = 0 <;>
          simp [convert_to_432, h0, hs, h1]
  · intro h0
    simp [convert_to_432, h0]
  · intro h0 hs h1
    simp [convert_to_432, h0, hs, h1]
  · intro h0 hs h1 h2
    simp [convert_to_432, h0, hs, h1, h2]
  · intro h0 hs h1 h2
    simp [convert_to_432, h0, hs, h1, h2]
  · intro h0 hs h1
    simp [convert_to_432, h0, hs, h1]
  · intro h0 hs h1
    simp [convert_to_432, h0, hs, h1]

/-- C1, witness: a run where the high-quality attempt fails on an audio job
(so the subtitle sub-retry does not apply) and the safe attempt succeeds:
convert returns success after exactly the two attempts. -/
theorem convert_retry_ladder_witness :
    convert_to_432 ladderRunner srcAud dstAud 44100 48000 none false false =
      ⟨[convHqCmd srcAud dstAud 44100 48000 none false false,
        convSafeCmd srcAud dstAud 44100 48000 none false false], .ok ()⟩ :=
  (convert_retry_ladder ladderRunner srcAud dstAud 44100 48000 none false false).2.2.2.2.2.1
    (by decide) (by decide) (by decide)

/-! ## C8: the safe tier keeps the original mapping -/

/-- The rendered path of any FPath contains a slash. -/
theorem slash_mem_toStr (p : FPath) : '/' ∈ (FPath.toStr p).data := by
  rw [FPath.toStr, String.data_append, String.data_append]
  rw [show ("/" : String).data = ['/'] from rfl]
  simp

/-- A rendered path is never the bare token mov_text. -/
theorem movtext_ne_toStr (p : FPath) : FPath.toStr p ≠ "mov_text" := by
  intro h
  exact absurd (h ▸ slash_mem_toStr p) (by decide)

/-- The filter chain string starts with the letter a. -/
theorem chain_head (osr tsr : Nat) : (convFilterChain osr tsr).data.head? = some 'a' := by
  rw [convFilterChain]
  simp only [String.data_append, List.append_assoc]
  rfl

/-- The filter chain string is never the token mov_text. -/
theorem movtext_ne_chain (osr tsr : Nat) : convFilterChain osr tsr ≠ "mov_text" := by
  intro h
  have hh := chain_head osr tsr
  rw [h] at hh
  exact absurd hh (by decide)

/-- An element outside both branches is outside the conditional list. -/
theorem not_mem_ite_list {α : Type} (c : Prop) [Decidable c] (a : α) (l₁ l₂ : List α)
    (h1 : a ∉ l₁) (h2 : a ∉ l₂) : a ∉ (if c then l₁ else l₂) := by
  split
  · exact h1
  · exact h2

/-- No stream-mapping command carries the token mov_text: the mapping tokens
are fixed literals, and the source path and filter chain differ from it. -/
theorem movtext_not_in_base (src : FPath) (chain ext : String) (hrv hap : Bool)
    (hc : chain ≠ "mov_text") (hs : FPath.toStr src ≠ "mov_text") :
    "mov_text" ∉ buildBaseCmd src chain ext hrv hap := by
  unfold buildBaseCmd
  have htail : ∀ m : List String, "mov_text" ∉ m →
      "mov_text" ∉ [ffmpegExe, "-y", "-i", FPath.toStr src] ++ m ++ ["-af", chain] := by
    intro m hm hmem
    simp [hm, ffmpegExe, Ne.symm hs, Ne.symm hc] at hmem
  refine not_mem_ite_list _ _ _ _ ?_ ?_
  · refine not_mem_ite_list _ _ _ _ ?_ ?_
    · simp [ffmpegExe, Ne.symm hs, Ne.symm hc]
    · simp [ffmpegExe, Ne.symm hs, Ne.symm hc]
  · exact htail _ (not_mem_ite_list _ _ _ _ (by simp) (by simp))

/-- No safe-tier table entry carries mov_text. -/
theorem safe_table_no_movtext : ∀ kv ∈ SAFE_CODEC, "mov_text" ∉ kv.2 := by decide

/-- No high-quality table entry carries mov_text. -/
theorem hq_table_no_movtext : ∀ kv ∈ HQ_CODEC, "mov_text" ∉ kv.2 := by decide

/-- Looking a key up in a table whose entries avoid mov_text yields a list
avoiding mov_text. -/
theorem tableGet_no_movtext (t : List (String × List String))
    (ht : ∀ kv ∈ t, "mov_text" ∉ kv.2) (k : String) (l : List String)
    (h : tableGet t k = some l) : "mov_text" ∉ l := by
  unfold tableGet at h
  cases hf : t.find? (fun kv => kv.1 = k) with
  | none => rw [hf] at h; cases h
  | some kv =>
    rw [hf] at h
    simp only [Option.map_some'] at h
    have hkv := ht kv (List.mem_of_find?_eq_some hf)
    rw [← Option.some.inj h]
    exact hkv

/-- No codec option set, for any extension and either tier, carries the
token mov_text. -/
theorem movtext_not_in_codec (e : String) (safe : Bool) :
    "mov_text" ∉ _codec_for_ext e safe := by
  have hval : _codec_for_ext e safe =
      (if safe then tableGet SAFE_CODEC (pyLower e) else tableGet HQ_CODEC (pyLower e)).getD
        (if pyLower e = ".flac" || pyLower e = ".wav" then
          (tableGet SAFE_CODEC (pyLower e)).getD ["-c:a", "copy"]
        else ["-c:a", "aac", "-b:a", "320k"]) := rfl
  rw [hval]
  have hdef : "mov_text" ∉
      (if pyLower e = ".flac" || pyLower e = ".wav" then
        (tableGet SAFE_CODEC (pyLower e)).getD ["-c:a", "copy"]
      else ["-c:a", "aac", "-b:a", "320k"]) := by
    split
    · cases h : tableGet SAFE_CODEC (pyLower e) with
      | none => simp [h]
      | some l =>
        simp only [h, Option.getD_some]
        exact tableGet_no_movtext SAFE_CODEC safe_table_no_movtext (pyLower e) l h
    · decide
  cases safe with
  | true =>
    rw [if_pos rfl]
    cases h : tableGet SAFE_CODEC (pyLower e) with
    | none => simpa [h] using hdef
    | some l =>
      simp only [h, Option.getD_some]
      exact tableGet_no_movtext SAFE_CODEC safe_table_no_movtext (pyLower e) l h
  | false =>
    rw [if_neg (by simp)]
    cases h : tableGet HQ_CODEC (pyLower e) with
    | none => simpa [h] using hdef
    | some l =>
      simp only [h, Option.getD_some]
      exact tableGet_no_movtext HQ_CODEC hq_table_no_movtext (pyLower e) l h

/-- The rewritten kilobit token always ends in k, so it is never mov_text. -/
theorem movtext_ne_kbps (n : Nat) : kbpsToken n ≠ "mov_text" := by
  intro h
  have hh : (kbpsToken n).data.getLast? = some 'k' := by
    rw [kbpsToken, String.data_append]
    rw [show ("k" : String).data = ['k'] from rfl]
    exact List.getLast?_concat _
  rw [h] at hh
  exact absurd hh (by decide)

/-- The bitrate adjustment never introduces the token mov_text. -/
theorem movtext_not_in_adjust (opts : List String) (obr : Option Nat)
    (h : "mov_text" ∉ opts) : "mov_text" ∉ _adjust_bitrate_in_options opts obr := by
  unfold _adjust_bitrate_in_options
  match obr with
  | none => exact h
  | some orig =>
    cases hidx : opts.findIdx? (fun x => x == "-b:a") with
    | none => simpa using h
    | some i =>
      cases htok : opts[i + 1]? with
      | none => simpa [htok] using h
      | some tok =>
        cases hparse : bitrateTokenBps tok with
        | none => simpa [htok, hparse] using h
        | some t =>
          by_cases hlt : (orig : Int) < t
          · simp only [htok, hparse]
            rw [if_pos hlt]
            intro hmem
            rcases List.mem_or_eq_of_mem_set hmem with hin | heq
            · exact h hin
            · exact movtext_ne_kbps _ heq.symm
          · simpa [htok, hparse, hlt] using h

/-- C8: when the high-quality attempt and the MP4-family subtitle sub-retry
both fail, the safe-tier attempt is the third and final command, built from
the same original stream mapping followed by the safe codec options, and the
forced text-subtitle codec token appears nowhere in it — only the sub-retry
command carried mov_text. -/
theorem safe_tier_original_mapping (runner : Nat → RunResult) (src dst : FPath)
    (osr tsr : Nat) (obr : Option Nat) (hrv hap : Bool)
    (h0 : (runner 0).returncode ≠ 0)
    (hs : subRetryCond (convExt dst) hrv (runner 0).stderr = true)
    (h1 : (runner 1).returncode ≠ 0) :
    ((convert_to_432 runner src dst osr tsr obr hrv hap).attempts =
      [convHqCmd src dst osr tsr obr hrv hap,
       convSubCmd src dst osr tsr obr hrv hap,
       convSafeCmd src dst osr tsr obr hrv hap]) ∧
    convSafeCmd src dst osr tsr obr hrv hap =
      convBase src dst osr tsr hrv hap ++
        _adjust_bitrate_in_options (_codec_for_ext (convExt dst) true) obr ++
        [FPath.toStr dst] ∧
    "mov_text" ∉ convBase src dst osr tsr hrv hap ∧
    "mov_text" ∉ _adjust_bitrate_in_options (_codec_for_ext (convExt dst) true) obr ∧
    "mov_text" ∈ convSubCmd src dst osr tsr obr hrv hap := by
  refine ⟨?_, rfl, ?_, ?_, ?_⟩
  · by_cases h2 : (runner 2).returncode = 0 <;> simp [convert_to_432, h0, hs, h1, h2]
  · exact movtext_not_in_base src _ _ hrv hap (movtext_ne_chain osr tsr) (movtext_ne_toStr src)
  · exact movtext_not_in_adjust _ obr (movtext_not_in_codec (convExt dst) true)
  · simp [convSubCmd]

/-- C8, witness: an MP4 job whose high-quality attempt fails with a subtitle
complaint and whose sub-retry fails as well issues exactly the three
commands, with the safe one free of mov_text. -/
theorem safe_tier_original_mapping_witness :
    (convert_to_432 subRunner srcVid dstVid 48000 48000 (some 256000) true false).attempts =
      [convHqCmd srcVid dstVid 48000 48000 (some 256000) true false,
       convSubCmd srcVid dstVid 48000 48000 (some 256000) true false,
       convSafeCmd srcVid dstVid 48000 48000 (some 256000) true false] :=
  (safe_tier_original_mapping subRunner srcVid dstVid 48000 48000 (some 256000) true false
    (by decide) (by decide) (by decide)).1

/-! ## C9: the probe cache is written at most once per resolved path -/

/-- One probe call never disturbs an existing cache entry. -/
theorem probe_step_persist (resolve : FPath → FPath) (cache : ProbeCache)
    (path : FPath) (env : ProbeEnv) (k : FPath) (r : ProbeResult)
    (h : cacheLookup cache k = some r) :
    cacheLookup (_probe_media_info resolve cache path env).2 k = some r := by
  unfold _probe_media_info
  cases hc : cacheLookup cache (resolve path) with
  | some r0 => simpa [hc] using h
  | none =>
    have hne : resolve path ≠ k := by
      intro hk
      rw [hk] at hc
      rw [h] at hc
      cases hc
    simp only [hc]
    unfold cacheLookup at h ⊢
    rw [List.find?_cons_of_neg _ (by simp [hne])]
    exact h

/-- After a probe call, the resolved path maps to the returned result. -/
theorem probe_step_self (resolve : FPath → FPath) (cache : ProbeCache)
    (path : FPath) (env : ProbeEnv) :
    cacheLookup (_probe_media_info resolve cache path env).2 (resolve path) =
      some (_probe_media_info resolve cache path env).1 := by
  unfold _probe_media_info
  cases hc : cacheLookup cache (resolve path) with
  | some r0 => simp only [hc]
  | none =>
    simp only [hc]
    unfold cacheLookup
    rw [List.find?_cons_of_pos _ (by simp)]
    rfl

/-- A cache hit returns the stored result and leaves the cache untouched. -/
theorem probe_hit (resolve : FPath → FPath) (cache : ProbeCache)
    (path : FPath) (env : ProbeEnv) (r : ProbeResult)
    (h : cacheLookup cache (resolve path) = some r) :
    _probe_media_info resolve cache path env = (r, cache) := by
  unfold _probe_media_info
  simp [h]

/-- A run of probe calls never disturbs an existing cache entry. -/
theorem runProbes_persist (resolve : FPath → FPath) (calls : List (FPath × ProbeEnv)) :
    ∀ (cache : ProbeCache) (k : FPath) (r : ProbeResult), cacheLookup cache k = some r →
      cacheLookup (runProbes resolve cache calls).2 k = some r := by
  induction calls with
  | nil => intro cache k r h; exact h
  | cons c rest ih =>
    intro cache k r h
    obtain ⟨path, env⟩ := c
    show cacheLookup
      (runProbes resolve (_probe_media_info resolve cache path env).2 rest).2 k = some r
    exact ih _ k r (probe_step_persist resolve cache path env k r h)

/-- A run returns one result per call. -/
theorem runProbes_length (resolve : FPath → FPath) (calls : List (FPath × ProbeEnv)) :
    ∀ cache : ProbeCache, (runProbes resolve cache calls).1.length = calls.length := by
  induction calls with
  | nil => intro _; rfl
  | cons c rest ih =>
    intro cache
    obtain ⟨path, env⟩ := c
    show ((_probe_media_info resolve cache path env).1 ::
      (runProbes resolve (_probe_media_info resolve cache path env).2 rest).1).length =
      (⟨path, env⟩ :: rest : List (FPath × ProbeEnv)).length
    simp [ih]

/-- Each returned result is what the final cache stores under the resolved
path of its call. -/
theorem runProbes_lookup (resolve : FPath → FPath) (calls : List (FPath × ProbeEnv)) :
    ∀ (cache : ProbeCache) (i : Nat) (call : FPath × ProbeEnv) (r : ProbeResult),
      calls[i]? = some call → (runProbes resolve cache calls).1[i]? = some r →
      cacheLookup (runProbes resolve cache calls).2 (resolve call.1) = some r := by
  induction calls with
  | nil =>
    intro cache i call r h _
    simp at h
  | cons c rest ih =>
    intro cache i call r hc hr
    obtain ⟨path, env⟩ := c
    cases i with
    | zero =>
      have hcall : call = (path, env) := by
        have : some (path, env) = some call := by simpa using hc
        exact (Option.some.inj this).symm
      have hr2 : (((_probe_media_info resolve cache path env).1) ::
          (runProbes resolve (_probe_media_info resolve cache path env).2 rest).1)[0]? =
          some r := hr
      have hres : (_probe_media_info resolve cache path env).1 = r := by
        simpa using hr2
      show cacheLookup
        (runProbes resolve (_probe_media_info resolve cache path env).2 rest).2
        (resolve call.1) = some r
      rw [hcall]
      rw [← hres]
      exact runProbes_persist resolve rest _ _ _
        (probe_step_self resolve cache path env)
    | succ n =>
      have hc2 : rest[n]? = some call := by simpa using hc
      have hr2 : (((_probe_media_info resolve cache path env).1) ::
          (runProbes resolve (_probe_media_info resolve cache path env).2 rest).1)[n + 1]? =
          some r := hr
      have hr3 : (runProbes resolve (_probe_media_info resolve cache path env).2 rest).1[n]? =
          some r := by simpa using hr2
      show cacheLookup
        (runProbes resolve (_probe_media_info resolve cache path env).2 rest).2
        (resolve call.1) = some r
      exact ih _ n call r hc2 hr3

/-- C9: over any run of probe calls, existing cache entries are never
overwritten; the run yields one result per call; a call whose resolved path
is already cached returns the cached result with the cache unchanged; and
any two calls with the same resolved path return the same result — the
first probe for a path wins. -/
theorem probe_cache_write_once (resolve : FPath → FPath) (cache₀ : ProbeCache)
    (calls : List (FPath × ProbeEnv)) :
    (∀ k r, cacheLookup cache₀ k = some r →
      cacheLookup (runProbes resolve cache₀ calls).2 k = some r) ∧
    ((runProbes resolve cache₀ calls).1.length = calls.length) ∧
    (∀ p env r, cacheLookup cache₀ (resolve p) = some r →
      _probe_media_info resolve cache₀ p env = (r, cache₀)) ∧
    (∀ (i j : Nat) (ci cj : FPath × ProbeEnv) (ri rj : ProbeResult),
      calls[i]? = some ci → calls[j]? = some cj →
      resolve ci.1 = resolve cj.1 →
      (runProbes resolve cache₀ calls).1[i]? = some ri →
      (runProbes resolve cache₀ calls).1[j]? = some rj → ri = rj) := by
  refine ⟨fun k r h => runProbes_persist resolve calls cache₀ k r h,
    runProbes_length resolve calls cache₀,
    fun p env r h => probe_hit resolve cache₀ p env r h, ?_⟩
  intro i j ci cj ri rj hi hj hkey hri hrj
  have h1 := runProbes_lookup resolve calls cache₀ i ci ri hi hri
  have h2 := runProbes_lookup resolve calls cache₀ j cj rj hj hrj
  rw [hkey] at h1
  rw [h1] at h2
  exact Option.some.inj h2

/-- C9, witness: with a result already cached for a path, a new probe call
for that path — even under a different environment — returns the cached
result and leaves the cache unchanged. -/
theorem probe_cache_write_once_witness :
    _probe_media_info (fun p => p) [(srcAud, probeRes0)] srcAud probeEnvVid =
      (probeRes0, [(srcAud, probeRes0)]) :=
  (probe_cache_write_once (fun p => p) [(srcAud, probeRes0)] []).2.2.1 srcAud probeEnvVid
    probeRes0 (by decide)
